import Mathlib

/-
  Verification of the chesschamp repository against its specification.

  The desktop game (src/main.py) is embedded as a pure state-transition
  system: the module-level globals become the fields of `GameState`, the
  event-handling blocks of `main` and the helper functions become state
  transformers, and one iteration of the pygame loop is a sequence of
  `Event`s (mouse clicks and the per-frame AI-timing check).

  The external python-chess rules library and the Stockfish engine are
  opaque collaborators of the source.  They are embedded as oracles:
  `Board` carries the answers the library would give (piece placement,
  side to move, legal-move list, game-over / check / outcome queries),
  a `Rules` record supplies the library's `push` operation and the fresh
  board built by `chess.Board()`, and `EngineOutcome` is the result of
  one `engine.play` call (a move, no move, or a raised error).

  The Flask payment app (src/chess_fundraiser_app/app.py) is embedded as
  pure handler functions parameterized by the Stripe API's responses;
  each handler also returns the list of external Stripe calls it makes.
-/

namespace Chess

/-- python-chess color constant `chess.WHITE` (the boolean `True`). -/
def WHITE : Bool := true

/-- python-chess color constant `chess.BLACK` (the boolean `False`). -/
def BLACK : Bool := false

/-- python-chess piece-type constant `chess.PAWN`. -/
def PAWN : Nat := 1

/-- python-chess piece-type constant `chess.QUEEN`. -/
def QUEEN : Nat := 5

/-- python-chess `chess.square(file_index, rank_index) = rank_index * 8 + file_index`. -/
def square (file_index rank_index : Nat) : Nat :=
  rank_index * 8 + file_index

/-- python-chess `chess.square_file(square) = square & 7`. -/
def square_file (sq : Nat) : Nat := sq % 8

/-- python-chess `chess.square_rank(square) = square >> 3`. -/
def square_rank (sq : Nat) : Nat := sq / 8

-- Screen / board layout constants from main.py.
def SCREEN_WIDTH : Nat := 800
def SCREEN_HEIGHT : Nat := 700
def BOARD_SIZE : Nat := 8
def SQUARE_SIZE : Nat := 60
def BOARD_WIDTH : Nat := BOARD_SIZE * SQUARE_SIZE
def BOARD_HEIGHT : Nat := BOARD_SIZE * SQUARE_SIZE
def BOARD_X : Nat := (SCREEN_WIDTH - BOARD_WIDTH) / 2
def BOARD_Y : Nat := (SCREEN_HEIGHT - BOARD_HEIGHT - 80) / 2 + 40

/-- `AI_MOVE_DELAY = 500` milliseconds. -/
def AI_MOVE_DELAY : Nat := 500

-- In-game button layout from main (button_y = BOARD_Y + BOARD_HEIGHT + 20,
-- button_width = 120, button_height = 40, button_spacing = 30,
-- start_x = (SCREEN_WIDTH - (2*120 + 30)) // 2).
def BUTTON_Y : Nat := BOARD_Y + BOARD_HEIGHT + 20
def BUTTON_WIDTH : Nat := 120
def BUTTON_HEIGHT : Nat := 40
def BUTTON_SPACING : Nat := 30
def BUTTON_START_X : Nat := (SCREEN_WIDTH - (BUTTON_WIDTH * 2 + BUTTON_SPACING)) / 2
def NEW_GAME_X : Nat := BUTTON_START_X
def RESIGN_X : Nat := BUTTON_START_X + BUTTON_WIDTH + BUTTON_SPACING

/-- pygame `Rect.collidepoint`: the point is inside when it lies in the
half-open rectangle (right and bottom edges excluded). -/
def in_rect (rx ry rw rh : Nat) (pos : Nat × Nat) : Prop :=
  rx ≤ pos.1 ∧ pos.1 < rx + rw ∧ ry ≤ pos.2 ∧ pos.2 < ry + rh

instance (rx ry rw rh : Nat) (pos : Nat × Nat) :
    Decidable (in_rect rx ry rw rh pos) := by
  unfold in_rect; infer_instance

/-- A chess piece as answered by `board.piece_at`: a color and a
python-chess piece-type number (1 = pawn, ..., 6 = king). -/
structure Piece where
  color : Bool
  piece_type : Nat
deriving DecidableEq, Repr

/-- A python-chess `chess.Move`: from-square, to-square and an optional
promotion piece type. -/
structure Move where
  from_square : Nat
  to_square : Nat
  promotion : Option Nat := none
deriving DecidableEq, Repr

/-- A python-chess `Outcome`: the winning color (if any) and the
termination name as rendered by `determine_game_outcome`s string
pipeline (split / replace / title on the library enum). -/
structure Outcome where
  winner : Option Bool
  termination : String
deriving DecidableEq, Repr

/-- The state of the external `chess.Board` object, recording the
answers the rules library gives to the queries the source makes:
piece placement, side to move, the legal-move list, `is_game_over()`,
`is_check()` and `outcome()`. -/
structure Board where
  pieces : List (Option Piece)
  turn : Bool
  legal_moves : List Move
  is_game_over : Bool
  is_check : Bool
  outcome : Option Outcome
deriving DecidableEq, Repr

/-- `board.piece_at(square)`. -/
def Board.piece_at (b : Board) (sq : Nat) : Option Piece :=
  b.pieces.getD sq none

/-- The opaque operations of the external rules library that produce new
boards: `board.push(move)` and the fresh board built by `chess.Board()`. -/
structure Rules where
  push : Board → Move → Board
  fresh : Board

/-- The result of one `engine.play(board, Limit(time=AI_THINK_TIME))`
call: a reply whose `.move` field is a move or `None`, a raised
`chess.engine.EngineError`, or any other raised exception. -/
inductive EngineOutcome where
  | ok (move : Option Move)
  | engineError
  | unexpectedError
deriving DecidableEq, Repr

/-- The module-level mutable game state of main.py.  `engine` records
whether the engine handle is non-`None` (a live engine process). -/
structure GameState where
  engine : Bool
  board : Board
  selected_square : Option Nat
  current_turn : Bool
  ai_move_trigger_time : Option Nat
  status_text : String
  info_text : String
  game_over : Bool
  game_result_message : Option String
deriving DecidableEq, Repr

/-- The apostrophe character, used in the turn banner text. -/
def apostrophe : Char := Char.ofNat 39

/-- `update_ui_text`: sets the turn banner from `board.turn` and shows
the check warning only while the game is not over. -/
def update_ui_text (st : GameState) : GameState :=
  let turn_color_name := if st.board.turn = WHITE then "White" else "Black"
  let status := turn_color_name ++ String.singleton apostrophe ++ "s Turn"
  let info := if st.game_over = false ∧ st.board.is_check = true then "Check!" else ""
  { st with status_text := status, info_text := info }

/-- `determine_game_outcome`: renders the library's outcome of the
current board into the result message string, or `none` when the game
is not over. -/
def determine_game_outcome (b : Board) : Option String :=
  if b.is_game_over = true then
    match b.outcome with
    | some o =>
      match o.winner with
      | some w =>
        some (o.termination ++ "! " ++ (if w = WHITE then "White" else "Black") ++ " Wins")
      | none => some (o.termination ++ "! Draw")
    | none => some "Game Over: Unknown Reason"
  else none

/-- `resign_game`: if the game is not already over, marks it over with
the opponent of the human winning by resignation, clears the info text
and refreshes the UI text.  The board, selection, turn flag and the
pending engine trigger are not touched. -/
def resign_game (player_color : Bool) (st : GameState) : GameState :=
  if st.game_over = false then
    let winner := if player_color = WHITE then "Black" else "White"
    update_ui_text { st with
      game_over := true,
      game_result_message := some (winner ++ " Wins by Resignation"),
      info_text := "" }
  else st

/-- `reset_game(start_engine_if_needed)`: re-runs engine startup when
asked and no engine is live (`engine_would_start` is whether
`initialize_engine` would succeed, i.e. whether the Stockfish binary can
be spawned), replaces the board with a fresh one, clears selection,
trigger and result, refreshes the UI text, and finally arms the engine
trigger (now + 100 ms) when the human plays Black and an engine is live. -/
def reset_game (rules : Rules) (engine_would_start player_color : Bool)
    (now : Nat) (start_engine_if_needed : Bool) (st : GameState) : GameState :=
  let eng := if start_engine_if_needed = true ∧ st.engine = false
             then engine_would_start else st.engine
  let st1 : GameState := { st with
    engine := eng,
    board := rules.fresh,
    selected_square := none,
    current_turn := WHITE,
    ai_move_trigger_time := none,
    info_text := "",
    game_over := false,
    game_result_message := none }
  let st2 := update_ui_text st1
  if player_color = BLACK ∧ st2.game_over = false ∧ st2.engine = true then
    { st2 with ai_move_trigger_time := some (now + 100) }
  else st2

/-- `get_square_from_mouse(pos)`: `None` outside the board rectangle;
inside, maps screen column/row to a logical file/rank according to the
board orientation and returns `chess.square(file, rank)`. -/
def get_square_from_mouse (player_color : Bool) (pos : Nat × Nat) : Option Nat :=
  let x := pos.1
  let y := pos.2
  if BOARD_X ≤ x ∧ x < BOARD_X + BOARD_WIDTH ∧ BOARD_Y ≤ y ∧ y < BOARD_Y + BOARD_HEIGHT then
    let screen_col := (x - BOARD_X) / SQUARE_SIZE
    let screen_row := (y - BOARD_Y) / SQUARE_SIZE
    let file := if player_color = WHITE then screen_col else BOARD_SIZE - 1 - screen_col
    let rank := if player_color = WHITE then BOARD_SIZE - 1 - screen_row else screen_row
    some (square file rank)
  else
    none

/-- `piece is not None and piece.color == player_color`. -/
def is_own_piece (player_color : Bool) (p : Option Piece) : Bool :=
  match p with
  | some piece => piece.color = player_color
  | none => false

/-- The move built by the board-interaction block for a click on `sq`
with `sel` selected: `chess.Move(selected_square, clicked_square)`,
promoted to a queen when the moving piece is a pawn and the target rank
is the last rank from the human player's side. -/
def attempted_move (player_color : Bool) (sel sq : Nat) (b : Board) : Move :=
  let promo : Option Nat :=
    match b.piece_at sel with
    | some moving_piece =>
      if moving_piece.piece_type = PAWN ∧
          ((player_color = WHITE ∧ square_rank sq = 7) ∨
           (player_color = BLACK ∧ square_rank sq = 0)) then
        some QUEEN
      else none
    | none => none
  { from_square := sel, to_square := sq, promotion := promo }

/-- The board-interaction block of `main` (the body run when a click
landed on board square `sq`, it is the human's turn and the game is not
over): select / move / re-select / ignore, arming the engine trigger
after a successful human move when an engine is live. -/
def board_click (rules : Rules) (player_color : Bool) (now : Nat)
    (sq : Nat) (st : GameState) : GameState :=
  let piece := st.board.piece_at sq
  match st.selected_square with
  | none =>
    if is_own_piece player_color piece = true then
      { st with selected_square := some sq }
    else
      { st with selected_square := none }
  | some sel =>
    let move := attempted_move player_color sel sq st.board
    if move ∈ st.board.legal_moves then
      let b2 := rules.push st.board move
      let go := b2.is_game_over
      let st1 := { st with
        board := b2,
        selected_square := none,
        current_turn := !player_color,
        game_over := go,
        game_result_message :=
          if go = true then determine_game_outcome b2 else st.game_result_message }
      let st2 := update_ui_text st1
      if st2.game_over = false ∧ st2.engine = true then
        { st2 with ai_move_trigger_time := some now }
      else st2
    else if sq = sel then
      { st with selected_square := none }
    else if is_own_piece player_color piece = true then
      { st with selected_square := some sq }
    else
      st

/-- The MOUSEBUTTONDOWN handler of `main`'s playing loop: the New Game
button (always active, its action is `reset_game` with the default
`start_engine_if_needed=True`), then the Resign button (active only
while the game is not over), then the board interaction guarded by it
being the human's turn and the game not being over, with clicks outside
the board clearing the selection. -/
def handle_mouse_click (rules : Rules) (engine_would_start player_color : Bool)
    (now : Nat) (pos : Nat × Nat) (st : GameState) : GameState :=
  if in_rect NEW_GAME_X BUTTON_Y BUTTON_WIDTH BUTTON_HEIGHT pos then
    reset_game rules engine_would_start player_color now true st
  else if st.game_over = false ∧ in_rect RESIGN_X BUTTON_Y BUTTON_WIDTH BUTTON_HEIGHT pos then
    resign_game player_color st
  else if st.current_turn = player_color ∧ st.game_over = false then
    match get_square_from_mouse player_color pos with
    | some sq => board_click rules player_color now sq st
    | none => { st with selected_square := none }
  else st

/-- `make_ai_move`: guarded by a live engine, the board's side to move
not being the human, and the game not being over; invokes the engine
once and handles its reply (push the move, switch the turn back to the
human, recompute game-over and result, refresh the UI) or its failure
(no move / EngineError / other exception), always clearing the trigger
in the `finally` block. -/
def make_ai_move (rules : Rules) (player_color : Bool)
    (eo : EngineOutcome) (st : GameState) : GameState :=
  if st.engine = true ∧ st.board.turn ≠ player_color ∧ st.game_over = false then
    let st1 :=
      match eo with
      | .ok (some m) =>
        let b2 := rules.push st.board m
        let go := b2.is_game_over
        update_ui_text { st with
          board := b2,
          current_turn := player_color,
          game_over := go,
          game_result_message :=
            if go = true then determine_game_outcome b2 else st.game_result_message }
      | .ok none =>
        let go := st.board.is_game_over
        let stA := update_ui_text { st with
          game_over := go,
          game_result_message :=
            if go = true then determine_game_outcome st.board else st.game_result_message }
        if go = false then { stA with current_turn := player_color } else stA
      | .engineError =>
        update_ui_text { st with current_turn := player_color }
      | .unexpectedError =>
        update_ui_text { st with current_turn := player_color }
    { st1 with ai_move_trigger_time := none }
  else st

/-- The per-frame AI-move-timing block of `main`: when the game is not
over, it is not the human's turn, an engine is live and a trigger is
armed and has elapsed by at least `AI_MOVE_DELAY`, call `make_ai_move`.
pygame ticks are non-negative, so `current_time - ai_move_trigger_time
>= AI_MOVE_DELAY` is the truncated-subtraction comparison. -/
def ai_move_timing (rules : Rules) (player_color : Bool) (now : Nat)
    (eo : EngineOutcome) (st : GameState) : GameState :=
  if st.game_over = false ∧ st.current_turn ≠ player_color ∧ st.engine = true then
    match st.ai_move_trigger_time with
    | some t => if AI_MOVE_DELAY ≤ now - t then make_ai_move rules player_color eo st else st
    | none => st
  else st

/-- One observable action of the playing loop: a left mouse click at a
position (with the current tick count), or the per-frame AI-timing
check (with the current tick count and the engine's reply should it be
invoked). -/
inductive Event where
  | click (now : Nat) (pos : Nat × Nat)
  | frame (now : Nat) (eo : EngineOutcome)
deriving Repr

/-- Step the game state by one event. -/
def step (rules : Rules) (engine_would_start player_color : Bool)
    (e : Event) (st : GameState) : GameState :=
  match e with
  | .click now pos => handle_mouse_click rules engine_would_start player_color now pos st
  | .frame now eo => ai_move_timing rules player_color now eo st

/-- Run a sequence of events. -/
def run (rules : Rules) (engine_would_start player_color : Bool)
    (es : List Event) (st : GameState) : GameState :=
  es.foldl (fun s e => step rules engine_would_start player_color e s) st

/-- The selection invariant of the input dispatcher: while it is not the
human's turn nothing is selected, and a selected square never holds a
piece of the non-human color. -/
def sel_inv (player_color : Bool) (st : GameState) : Prop :=
  (st.current_turn ≠ player_color → st.selected_square = none) ∧
  (∀ sq p, st.selected_square = some sq → st.board.piece_at sq = some p →
    p.color = player_color)

/-- State of a game running with no live engine: the handle is `None`
and no trigger is armed. -/
def engine_off (st : GameState) : Prop :=
  st.engine = false ∧ st.ai_move_trigger_time = none

/-- An event that is not a click on the New Game button (the only input
that calls `reset_game`). -/
def not_new_game (e : Event) : Prop :=
  match e with
  | .click _ pos => ¬ in_rect NEW_GAME_X BUTTON_Y BUTTON_WIDTH BUTTON_HEIGHT pos
  | .frame _ _ => True

end Chess

namespace Fundraiser

/-- The Flask routes of app.py that the payment flow names. -/
inductive Route where
  | index
  | checkout
  | success
  | game_settings
  | start_game
  | webhook
deriving DecidableEq, Repr

/-- One call to the external Stripe API made by a handler. -/
inductive StripeCall where
  | create_session
  | retrieve_session (sid : String)
deriving DecidableEq, Repr

/-- An HTTP response of the payment app: an in-app redirect built with
`url_for` (carrying an optional `session_id` query parameter), a 303
redirect to an external URL, a JSON error with a status code, or a
rendered page. -/
inductive Response where
  | redirect (r : Route) (session_id : Option String)
  | redirect_url (url : String)
  | json_error (code : Nat)
  | page (r : Route)
deriving DecidableEq, Repr

/-- `ENABLE_SIMULATION = True` from stripe_config.py. -/
def ENABLE_SIMULATION : Bool := true

/-- The `/checkout` handler: in simulation mode, redirect straight to
`url_for('success')` (no session id, no Stripe call); otherwise create
a Stripe checkout session and 303-redirect to its hosted URL, turning a
raised exception into a 500 JSON error.  `create_result` is the Stripe
API's answer; the second component of the result lists the external
Stripe calls made. -/
def checkout (simulation : Bool) (create_result : Except String String) :
    Response × List StripeCall :=
  if simulation = true then
    (.redirect .success none, [])
  else
    match create_result with
    | .ok url => (.redirect_url url, [.create_session])
    | .error _ => (.json_error 500, [.create_session])

/-- The `/success` handler: when a (truthy) `session_id` query parameter
is present, retrieve the session from Stripe and log whether
`payment_status == "paid"`, swallowing any raised exception; in every
case redirect to `url_for('game_settings')`.  `retrieve_result` is the
Stripe API's answer (the payment status, or a raised exception). -/
def success (session_id : Option String)
    (retrieve_result : String → Except String String) :
    Response × List StripeCall :=
  match session_id with
  | some sid =>
    if sid = "" then
      (.redirect .game_settings none, [])
    else
      match retrieve_result sid with
      | .ok status =>
        if status = "paid" then
          (.redirect .game_settings none, [.retrieve_session sid])
        else
          (.redirect .game_settings none, [.retrieve_session sid])
      | .error _ => (.redirect .game_settings none, [.retrieve_session sid])
  | none => (.redirect .game_settings none, [])

end Fundraiser

namespace Chess

-- Concrete sample data used to instantiate the oracles in witness
-- theorems: a sparse position with a white pawn on a2 (square 8), the
-- white king on e1 (square 4) and the black king on e8 (square 60).

def white_pawn : Piece := { color := WHITE, piece_type := PAWN }

def white_king : Piece := { color := WHITE, piece_type := 6 }

def black_king : Piece := { color := BLACK, piece_type := 6 }

def demo_pieces : List (Option Piece) :=
  (((List.replicate 64 (none : Option Piece)).set 4 (some white_king)).set 8
      (some white_pawn)).set 60 (some black_king)

def demo_board : Board :=
  { pieces := demo_pieces,
    turn := WHITE,
    legal_moves := [{ from_square := 8, to_square := 16 }, { from_square := 8, to_square := 24 }],
    is_game_over := false,
    is_check := false,
    outcome := none }

def demo_board_black_to_move : Board :=
  { demo_board with
    turn := BLACK,
    legal_moves := [{ from_square := 60, to_square := 61 }, { from_square := 60, to_square := 59 }] }

def demo_rules : Rules :=
  { push := fun b _ => { b with turn := !b.turn }, fresh := demo_board }

def demo_state : GameState :=
  { engine := true,
    board := demo_board,
    selected_square := none,
    current_turn := WHITE,
    ai_move_trigger_time := none,
    status_text := "",
    info_text := "",
    game_over := false,
    game_result_message := none }

def demo_state_ai_turn : GameState :=
  { demo_state with
    board := demo_board_black_to_move,
    current_turn := BLACK,
    ai_move_trigger_time := some 0 }

def demo_state_selected : GameState :=
  { demo_state with selected_square := some 8 }

def demo_state_no_engine : GameState :=
  { demo_state with engine := false }

end Chess

namespace Chess

-- Field-preservation facts about the embedded state transformers.

theorem update_ui_text_engine (st : GameState) : (update_ui_text st).engine = st.engine := rfl

theorem update_ui_text_board (st : GameState) : (update_ui_text st).board = st.board := rfl

theorem update_ui_text_selected (st : GameState) :
    (update_ui_text st).selected_square = st.selected_square := rfl

theorem update_ui_text_turn (st : GameState) :
    (update_ui_text st).current_turn = st.current_turn := rfl

theorem update_ui_text_trigger (st : GameState) :
    (update_ui_text st).ai_move_trigger_time = st.ai_move_trigger_time := rfl

theorem update_ui_text_game_over (st : GameState) :
    (update_ui_text st).game_over = st.game_over := rfl

theorem update_ui_text_message (st : GameState) :
    (update_ui_text st).game_result_message = st.game_result_message := rfl

theorem frame_id_of_turn (rules : Rules) (pc : Bool) (now : Nat) (eo : EngineOutcome)
    (st : GameState) (h : st.current_turn = pc) :
    ai_move_timing rules pc now eo st = st := by
  unfold ai_move_timing
  rw [if_neg]
  intro hc
  exact hc.2.1 h

/-- C1: when the game is not over, it is the engine's turn, an engine is
live and an armed trigger has elapsed by at least `AI_MOVE_DELAY`, the
per-frame check invokes the engine, pushes the returned move, hands the
turn flag back to the human, recomputes the game-over flag and (when
over) the result message from the new position, and clears the trigger. -/
theorem c1_ai_frame_move (rules : Rules) (pc : Bool) (m : Move) (st : GameState)
    (now t : Nat)
    (hgo : st.game_over = false)
    (hturn : st.current_turn ≠ pc)
    (heng : st.engine = true)
    (htrig : st.ai_move_trigger_time = some t)
    (helapsed : AI_MOVE_DELAY ≤ now - t)
    (hbturn : st.board.turn ≠ pc) :
    (ai_move_timing rules pc now (.ok (some m)) st).board = rules.push st.board m ∧
    (ai_move_timing rules pc now (.ok (some m)) st).current_turn = pc ∧
    (ai_move_timing rules pc now (.ok (some m)) st).game_over =
      (rules.push st.board m).is_game_over ∧
    ((rules.push st.board m).is_game_over = true →
      (ai_move_timing rules pc now (.ok (some m)) st).game_result_message =
        determine_game_outcome (rules.push st.board m)) ∧
    (ai_move_timing rules pc now (.ok (some m)) st).ai_move_trigger_time = none := by
  have key : ai_move_timing rules pc now (.ok (some m)) st =
      { update_ui_text { st with
          board := rules.push st.board m,
          current_turn := pc,
          game_over := (rules.push st.board m).is_game_over,
          game_result_message :=
            if (rules.push st.board m).is_game_over = true
            then determine_game_outcome (rules.push st.board m)
            else st.game_result_message }
        with ai_move_trigger_time := none } := by
    unfold ai_move_timing
    rw [if_pos ⟨hgo, hturn, heng⟩]
    simp only [htrig]
    rw [if_pos helapsed]
    unfold make_ai_move
    rw [if_pos ⟨heng, hbturn, hgo⟩]
    rfl
  rw [key]
  refine ⟨rfl, rfl, rfl, ?_, rfl⟩
  intro hover
  show (if (rules.push st.board m).is_game_over = true
      then determine_game_outcome (rules.push st.board m)
      else st.game_result_message) = determine_game_outcome (rules.push st.board m)
  rw [if_pos hover]

/-- Witness for C1 at a concrete state: black to move, engine live,
trigger armed at tick 0, frame at tick 500. -/
theorem c1_witness :
    (ai_move_timing demo_rules WHITE 500
        (.ok (some { from_square := 60, to_square := 59 })) demo_state_ai_turn).board =
      demo_rules.push demo_state_ai_turn.board { from_square := 60, to_square := 59 } ∧
    (ai_move_timing demo_rules WHITE 500
        (.ok (some { from_square := 60, to_square := 59 })) demo_state_ai_turn).current_turn = WHITE ∧
    (ai_move_timing demo_rules WHITE 500
        (.ok (some { from_square := 60, to_square := 59 })) demo_state_ai_turn).ai_move_trigger_time = none := by
  obtain ⟨h1, h2, h3, h4, h5⟩ :=
    c1_ai_frame_move demo_rules WHITE { from_square := 60, to_square := 59 }
      demo_state_ai_turn 500 0 (by decide) (by decide) (by decide) (by decide)
      (by decide) (by decide)
  exact ⟨h1, h2, h5⟩

/-- C4: when the engine invocation returns no move or raises an
engine/communication error (with the game not over, as at every real
invocation), the turn flag goes back to the human, the board is
unchanged, the trigger is cleared, and the per-frame check will not
invoke the engine again from the resulting state. -/
theorem c4_engine_failure (rules : Rules) (pc : Bool) (eo : EngineOutcome) (st : GameState)
    (heng : st.engine = true)
    (hbturn : st.board.turn ≠ pc)
    (hgo : st.game_over = false)
    (hbgo : st.board.is_game_over = false)
    (herr : eo = .ok none ∨ eo = .engineError ∨ eo = .unexpectedError) :
    (make_ai_move rules pc eo st).current_turn = pc ∧
    (make_ai_move rules pc eo st).board = st.board ∧
    (make_ai_move rules pc eo st).ai_move_trigger_time = none ∧
    (∀ now2 eo2, ai_move_timing rules pc now2 eo2 (make_ai_move rules pc eo st) =
      make_ai_move rules pc eo st) := by
  have hct : (make_ai_move rules pc eo st).current_turn = pc := by
    rcases herr with rfl | rfl | rfl <;>
      simp [make_ai_move, update_ui_text, heng, hbturn, hgo, hbgo]
  have hbd : (make_ai_move rules pc eo st).board = st.board := by
    rcases herr with rfl | rfl | rfl <;>
      simp [make_ai_move, update_ui_text, heng, hbturn, hgo, hbgo]
  have htr : (make_ai_move rules pc eo st).ai_move_trigger_time = none := by
    rcases herr with rfl | rfl | rfl <;>
      simp [make_ai_move, update_ui_text, heng, hbturn, hgo, hbgo]
  exact ⟨hct, hbd, htr, fun now2 eo2 => frame_id_of_turn rules pc now2 eo2 _ hct⟩

/-- Witness for C4 at a concrete state: black to move, engine live, the
engine raises an EngineError. -/
theorem c4_witness :
    (make_ai_move demo_rules WHITE .engineError demo_state_ai_turn).current_turn = WHITE ∧
    (make_ai_move demo_rules WHITE .engineError demo_state_ai_turn).board =
      demo_state_ai_turn.board ∧
    (make_ai_move demo_rules WHITE .engineError demo_state_ai_turn).ai_move_trigger_time = none := by
  obtain ⟨h1, h2, h3, h4⟩ :=
    c4_engine_failure demo_rules WHITE .engineError demo_state_ai_turn
      (by decide) (by decide) (by decide) (by decide) (Or.inr (Or.inl rfl))
  exact ⟨h1, h2, h3⟩

/-- C10: for every pointer coordinate and both orientations,
`get_square_from_mouse` returns `none` exactly when the coordinate lies
outside the board rectangle, and otherwise returns the square index
`chess.square(file, rank)` with file and rank each within 0-7, hence an
index in 0-63. -/
theorem c10_mouse_mapping (pc : Bool) (x y : Nat) :
    (get_square_from_mouse pc (x, y) = none ↔
      ¬(BOARD_X ≤ x ∧ x < BOARD_X + BOARD_WIDTH ∧
        BOARD_Y ≤ y ∧ y < BOARD_Y + BOARD_HEIGHT)) ∧
    (∀ sq, get_square_from_mouse pc (x, y) = some sq →
      ∃ f r, f ≤ 7 ∧ r ≤ 7 ∧ sq = square f r ∧ sq ≤ 63) := by
  have e1 : BOARD_X = 160 := rfl
  have e2 : BOARD_Y = 110 := rfl
  have e3 : BOARD_WIDTH = 480 := rfl
  have e4 : BOARD_HEIGHT = 480 := rfl
  have e5 : SQUARE_SIZE = 60 := rfl
  have e6 : BOARD_SIZE = 8 := rfl
  by_cases h : BOARD_X ≤ x ∧ x < BOARD_X + BOARD_WIDTH ∧
      BOARD_Y ≤ y ∧ y < BOARD_Y + BOARD_HEIGHT
  · constructor
    · simp only [get_square_from_mouse]
      rw [if_pos h]
      simp [h]
    · intro sq hsq
      simp only [get_square_from_mouse] at hsq
      rw [if_pos h] at hsq
      simp only [Option.some.injEq] at hsq
      subst hsq
      rw [e1, e3, e2, e4] at h
      refine ⟨_, _, ?_, ?_, rfl, ?_⟩
      · rw [e1, e5, e6]
        split
        · omega
        · omega
      · rw [e2, e5, e6]
        split
        · omega
        · omega
      · simp only [square, e1, e2, e5, e6]
        by_cases hpc : pc = WHITE
        · simp only [if_pos hpc]
          omega
        · simp only [if_neg hpc]
          omega
  · constructor
    · simp only [get_square_from_mouse]
      rw [if_neg h]
      simp [h]
    · intro sq hsq
      simp only [get_square_from_mouse] at hsq
      rw [if_neg h] at hsq
      cases hsq

/-- Witness for C10: the top-left board pixel maps to square a8 = 56,
which is within 0-63. -/
theorem c10_witness :
    get_square_from_mouse WHITE (160, 110) = some 56 ∧ (56 : Nat) ≤ 63 := by
  obtain ⟨f, r, hf, hr, hsq, hle⟩ :=
    (c10_mouse_mapping WHITE 160 110).2 56 (by decide)
  exact ⟨by decide, hle⟩

end Chess

namespace Fundraiser

/-- C8: with simulation enabled, the checkout handler immediately
redirects to the success route with no session id and makes no Stripe
call, and the success handler invoked without a session id redirects to
the game-settings page, again with no Stripe call — so the simulated
checkout flow reaches the settings page without ever contacting the
external payment service. -/
theorem c8_simulation_no_stripe (create_result : Except String String)
    (retrieve_result : String → Except String String) :
    checkout ENABLE_SIMULATION create_result = (Response.redirect Route.success none, []) ∧
    success none retrieve_result = (Response.redirect Route.game_settings none, []) :=
  ⟨rfl, rfl⟩

/-- C9: whatever the session id (absent, empty, or present) and whatever
the Stripe verification answers (paid, not paid, or a raised error), the
success handler's response is a redirect to the game-settings page. -/
theorem c9_success_always_settings (session_id : Option String)
    (retrieve_result : String → Except String String) :
    (success session_id retrieve_result).1 =
      Response.redirect Route.game_settings none := by
  cases session_id with
  | none => rfl
  | some sid =>
    simp only [success]
    split
    · rfl
    · cases retrieve_result sid with
      | ok status =>
        by_cases hp : status = "paid"
        · simp [hp]
        · simp [hp]
      | error e => rfl

end Fundraiser

namespace Chess

theorem board_square_not_button (pc : Bool) (pos : Nat × Nat) (sq : Nat)
    (h : get_square_from_mouse pc pos = some sq) :
    ¬ in_rect NEW_GAME_X BUTTON_Y BUTTON_WIDTH BUTTON_HEIGHT pos ∧
    ¬ in_rect RESIGN_X BUTTON_Y BUTTON_WIDTH BUTTON_HEIGHT pos := by
  have hy : pos.2 < BOARD_Y + BOARD_HEIGHT := by
    by_cases hin : BOARD_X ≤ pos.1 ∧ pos.1 < BOARD_X + BOARD_WIDTH ∧
        BOARD_Y ≤ pos.2 ∧ pos.2 < BOARD_Y + BOARD_HEIGHT
    · exact hin.2.2.2
    · exfalso
      simp only [get_square_from_mouse] at h
      rw [if_neg hin] at h
      cases h
  have e1 : BOARD_Y + BOARD_HEIGHT = 590 := rfl
  have e2 : BUTTON_Y = 610 := rfl
  rw [e1] at hy
  constructor
  · intro hr
    unfold in_rect at hr
    rw [e2] at hr
    omega
  · intro hr
    unfold in_rect at hr
    rw [e2] at hr
    omega

theorem click_on_board (rules : Rules) (ew pc : Bool) (now : Nat) (pos : Nat × Nat)
    (sq : Nat) (st : GameState)
    (hturn : st.current_turn = pc) (hgo : st.game_over = false)
    (hsq : get_square_from_mouse pc pos = some sq) :
    handle_mouse_click rules ew pc now pos st = board_click rules pc now sq st := by
  obtain ⟨hng, hrs⟩ := board_square_not_button pc pos sq hsq
  unfold handle_mouse_click
  rw [if_neg hng, if_neg (fun hc => hrs hc.2), if_pos ⟨hturn, hgo⟩]
  simp only [hsq]

theorem board_click_sel_none (rules : Rules) (pc : Bool) (now sq : Nat) (st : GameState)
    (h : st.selected_square = none) :
    board_click rules pc now sq st =
      (if is_own_piece pc (st.board.piece_at sq) = true
       then { st with selected_square := some sq }
       else { st with selected_square := none }) := by
  unfold board_click
  rw [h]

theorem board_click_legal (rules : Rules) (pc : Bool) (now sq sel : Nat) (st : GameState)
    (hsel : st.selected_square = some sel)
    (hleg : attempted_move pc sel sq st.board ∈ st.board.legal_moves) :
    (board_click rules pc now sq st).board =
      rules.push st.board (attempted_move pc sel sq st.board) ∧
    (board_click rules pc now sq st).selected_square = none ∧
    (board_click rules pc now sq st).current_turn = !pc ∧
    (board_click rules pc now sq st).engine = st.engine ∧
    (board_click rules pc now sq st).game_over =
      (rules.push st.board (attempted_move pc sel sq st.board)).is_game_over := by
  unfold board_click
  simp only [hsel]
  rw [if_pos hleg]
  refine ⟨?_, ?_, ?_, ?_, ?_⟩ <;> (repeat' split) <;> rfl

theorem board_click_same (rules : Rules) (pc : Bool) (now sq sel : Nat) (st : GameState)
    (hsel : st.selected_square = some sel)
    (hnl : attempted_move pc sel sq st.board ∉ st.board.legal_moves)
    (heq : sq = sel) :
    board_click rules pc now sq st = { st with selected_square := none } := by
  unfold board_click
  simp only [hsel]
  rw [if_neg hnl, if_pos heq]

theorem board_click_reselect (rules : Rules) (pc : Bool) (now sq sel : Nat) (st : GameState)
    (hsel : st.selected_square = some sel)
    (hnl : attempted_move pc sel sq st.board ∉ st.board.legal_moves)
    (hne : sq ≠ sel)
    (hown : is_own_piece pc (st.board.piece_at sq) = true) :
    board_click rules pc now sq st = { st with selected_square := some sq } := by
  unfold board_click
  simp only [hsel]
  rw [if_neg hnl, if_neg hne, if_pos hown]

theorem board_click_ignore (rules : Rules) (pc : Bool) (now sq sel : Nat) (st : GameState)
    (hsel : st.selected_square = some sel)
    (hnl : attempted_move pc sel sq st.board ∉ st.board.legal_moves)
    (hne : sq ≠ sel)
    (hnot : is_own_piece pc (st.board.piece_at sq) = false) :
    board_click rules pc now sq st = st := by
  unfold board_click
  simp only [hsel]
  rw [if_neg hnl, if_neg hne, if_neg (fun hc => Bool.noConfusion (hnot.symm.trans hc))]

/-- Counterexample to C2 as stated: with a2 (square 8) selected and a
click on the empty square h8 (square 63, pixel (580, 110)), the
attempted move a2-h8 (auto-promoted to queen since h8 is on the last
rank) is illegal and the clicked square holds no human piece, yet the
selection is NOT cleared — the handler leaves it at square 8. -/
theorem c2_counterexample :
    (handle_mouse_click demo_rules false WHITE 0 (580, 110)
        demo_state_selected).selected_square = some 8 ∧
    get_square_from_mouse WHITE (580, 110) = some 63 ∧
    attempted_move WHITE 8 63 demo_state_selected.board ∉
      demo_state_selected.board.legal_moves ∧
    demo_state_selected.board.piece_at 63 = none ∧
    demo_state_selected.current_turn = WHITE ∧
    demo_state_selected.game_over = false := by
  refine ⟨?_, ?_, ?_, ?_, ?_, ?_⟩ <;> decide

/-- C2 (amended): for a board click with a prior selection while it is
the human's turn and the game is not over: a legal move (with queen
auto-promotion) is applied and the selection cleared; an illegal
attempt on the same square clears the selection; a click on another
human-owned piece re-selects it; otherwise (illegal move to a different
square not holding an own piece) the selection and the whole state are
left unchanged — the selection is NOT cleared in that last case. -/
theorem c2_amended_selection (rules : Rules) (ew pc : Bool) (now : Nat)
    (pos : Nat × Nat) (sq sel : Nat) (st : GameState)
    (hturn : st.current_turn = pc) (hgo : st.game_over = false)
    (hsq : get_square_from_mouse pc pos = some sq)
    (hsel : st.selected_square = some sel) :
    (attempted_move pc sel sq st.board ∈ st.board.legal_moves →
      (handle_mouse_click rules ew pc now pos st).board =
        rules.push st.board (attempted_move pc sel sq st.board) ∧
      (handle_mouse_click rules ew pc now pos st).selected_square = none) ∧
    (attempted_move pc sel sq st.board ∉ st.board.legal_moves → sq = sel →
      handle_mouse_click rules ew pc now pos st = { st with selected_square := none }) ∧
    (attempted_move pc sel sq st.board ∉ st.board.legal_moves → sq ≠ sel →
      is_own_piece pc (st.board.piece_at sq) = true →
      handle_mouse_click rules ew pc now pos st = { st with selected_square := some sq }) ∧
    (attempted_move pc sel sq st.board ∉ st.board.legal_moves → sq ≠ sel →
      is_own_piece pc (st.board.piece_at sq) = false →
      handle_mouse_click rules ew pc now pos st = st) := by
  rw [click_on_board rules ew pc now pos sq st hturn hgo hsq]
  refine ⟨?_, ?_, ?_, ?_⟩
  · intro hleg
    have h := board_click_legal rules pc now sq sel st hsel hleg
    exact ⟨h.1, h.2.1⟩
  · intro hnl heq
    exact board_click_same rules pc now sq sel st hsel hnl heq
  · intro hnl hne hown
    exact board_click_reselect rules pc now sq sel st hsel hnl hne hown
  · intro hnl hne hnot
    exact board_click_ignore rules pc now sq sel st hsel hnl hne hnot

/-- Witness for the amended C2: the legal pawn push a2-a3 is applied and
the selection cleared. -/
theorem c2_witness :
    (handle_mouse_click demo_rules false WHITE 0 (160, 410)
        demo_state_selected).selected_square = none := by
  have h := (c2_amended_selection demo_rules false WHITE 0 (160, 410) 16 8
    demo_state_selected (by decide) (by decide) (by decide) (by decide)).1 (by decide)
  exact h.2

-- Field-preservation facts about resign_game: it only touches the
-- game-over flag, the result message and the UI text.

theorem resign_board (pc : Bool) (st : GameState) :
    (resign_game pc st).board = st.board := by
  unfold resign_game
  split <;> rfl

theorem resign_selected (pc : Bool) (st : GameState) :
    (resign_game pc st).selected_square = st.selected_square := by
  unfold resign_game
  split <;> rfl

theorem resign_turn (pc : Bool) (st : GameState) :
    (resign_game pc st).current_turn = st.current_turn := by
  unfold resign_game
  split <;> rfl

theorem resign_engine (pc : Bool) (st : GameState) :
    (resign_game pc st).engine = st.engine := by
  unfold resign_game
  split <;> rfl

theorem resign_trigger (pc : Bool) (st : GameState) :
    (resign_game pc st).ai_move_trigger_time = st.ai_move_trigger_time := by
  unfold resign_game
  split <;> rfl

theorem resign_game_over (pc : Bool) (st : GameState) (hgo : st.game_over = false) :
    (resign_game pc st).game_over = true := by
  unfold resign_game
  rw [if_pos hgo]
  rfl

theorem resign_message (pc : Bool) (st : GameState) (hgo : st.game_over = false) :
    (resign_game pc st).game_result_message =
      some ((if pc = WHITE then "Black" else "White") ++ " Wins by Resignation") := by
  unfold resign_game
  rw [if_pos hgo]
  rfl

-- Identity of the input and frame handlers on a finished game.

theorem gameover_click_id (rules : Rules) (ew pc : Bool) (now : Nat) (pos : Nat × Nat)
    (st : GameState) (hgo : st.game_over = true)
    (hng : ¬ in_rect NEW_GAME_X BUTTON_Y BUTTON_WIDTH BUTTON_HEIGHT pos) :
    handle_mouse_click rules ew pc now pos st = st := by
  unfold handle_mouse_click
  rw [if_neg hng,
    if_neg (fun hc => Bool.noConfusion (hgo.symm.trans hc.1)),
    if_neg (fun hc => Bool.noConfusion (hgo.symm.trans hc.2))]

theorem gameover_frame_id (rules : Rules) (pc : Bool) (now : Nat) (eo : EngineOutcome)
    (st : GameState) (hgo : st.game_over = true) :
    ai_move_timing rules pc now eo st = st := by
  unfold ai_move_timing
  rw [if_neg (fun hc => Bool.noConfusion (hgo.symm.trans hc.1))]

theorem gameover_make_id (rules : Rules) (pc : Bool) (eo : EngineOutcome)
    (st : GameState) (hgo : st.game_over = true) :
    make_ai_move rules pc eo st = st := by
  unfold make_ai_move
  rw [if_neg (fun hc => Bool.noConfusion (hgo.symm.trans hc.2.2))]

theorem gameover_run_id (rules : Rules) (ew pc : Bool) (es : List Event)
    (st : GameState) (hgo : st.game_over = true)
    (h : ∀ e ∈ es, not_new_game e) :
    run rules ew pc es st = st := by
  induction es with
  | nil => rfl
  | cons e es ih =>
    have h1 : step rules ew pc e st = st := by
      cases e with
      | click now pos =>
        exact gameover_click_id rules ew pc now pos st hgo (h _ (List.mem_cons_self _ _))
      | frame now eo => exact gameover_frame_id rules pc now eo st hgo
    show run rules ew pc es (step rules ew pc e st) = st
    rw [h1]
    exact ih (fun e' he' => h e' (List.mem_cons_of_mem _ he'))

theorem gameover_clicks_id (rules : Rules) (ew pc : Bool) (st : GameState)
    (hgo : st.game_over = true) :
    ∀ clicks : List (Nat × (Nat × Nat)),
      (∀ c ∈ clicks, ¬ in_rect NEW_GAME_X BUTTON_Y BUTTON_WIDTH BUTTON_HEIGHT c.2) →
      clicks.foldl (fun s c => handle_mouse_click rules ew pc c.1 c.2 s) st = st := by
  intro clicks
  induction clicks with
  | nil => intro _; rfl
  | cons c cs ih =>
    intro h
    rw [List.foldl_cons,
      gameover_click_id rules ew pc c.1 c.2 st hgo (h c (List.mem_cons_self _ _))]
    exact ih (fun c' hc' => h c' (List.mem_cons_of_mem _ hc'))

/-- C5: resigning a live game marks it over, names the color opposite
the human as winner by resignation, leaves the board untouched, and
every subsequent sequence of clicks that stays off the New Game button
(the only control whose action is `reset_game`) leaves the state
entirely unchanged — board clicks are ignored. -/
theorem c5_resignation (rules : Rules) (ew pc : Bool) (st : GameState)
    (hgo : st.game_over = false) :
    (resign_game pc st).game_over = true ∧
    (resign_game pc st).game_result_message =
      some ((if pc = WHITE then "Black" else "White") ++ " Wins by Resignation") ∧
    (resign_game pc st).board = st.board ∧
    (∀ clicks : List (Nat × (Nat × Nat)),
      (∀ c ∈ clicks, ¬ in_rect NEW_GAME_X BUTTON_Y BUTTON_WIDTH BUTTON_HEIGHT c.2) →
      clicks.foldl (fun s c => handle_mouse_click rules ew pc c.1 c.2 s)
        (resign_game pc st) = resign_game pc st) :=
  ⟨resign_game_over pc st hgo, resign_message pc st hgo, resign_board pc st,
    gameover_clicks_id rules ew pc (resign_game pc st) (resign_game_over pc st hgo)⟩

/-- Witness for C5 at a concrete live game, with one subsequent click
away from the New Game button. -/
theorem c5_witness :
    (resign_game WHITE demo_state).game_over = true ∧
    (resign_game WHITE demo_state).game_result_message = some "Black Wins by Resignation" ∧
    (resign_game WHITE demo_state).board = demo_state.board ∧
    [((0 : Nat), ((200 : Nat), (200 : Nat)))].foldl
      (fun s c => handle_mouse_click demo_rules false WHITE c.1 c.2 s)
      (resign_game WHITE demo_state) = resign_game WHITE demo_state := by
  obtain ⟨h1, h2, h3, h4⟩ := c5_resignation demo_rules false WHITE demo_state (by decide)
  refine ⟨h1, ?_, h3, h4 _ (by decide)⟩
  rw [h2]
  decide

/-- C7: resignation does not clear a still-armed trigger, but it sets
the game-over flag, which both the per-frame check and `make_ai_move`
require to be false; so from the resigned state the engine never moves:
any event sequence without a New Game click leaves the board unchanged
and the game over. -/
theorem c7_resign_blocks_trigger (rules : Rules) (ew pc : Bool) (st : GameState)
    (hgo : st.game_over = false) :
    (resign_game pc st).ai_move_trigger_time = st.ai_move_trigger_time ∧
    (resign_game pc st).game_over = true ∧
    (∀ eo, make_ai_move rules pc eo (resign_game pc st) = resign_game pc st) ∧
    (∀ now eo, ai_move_timing rules pc now eo (resign_game pc st) = resign_game pc st) ∧
    (∀ es, (∀ e ∈ es, not_new_game e) →
      (run rules ew pc es (resign_game pc st)).board = st.board ∧
      (run rules ew pc es (resign_game pc st)).game_over = true) := by
  have hg := resign_game_over pc st hgo
  refine ⟨resign_trigger pc st, hg, ?_, ?_, ?_⟩
  · intro eo
    exact gameover_make_id rules pc eo _ hg
  · intro now eo
    exact gameover_frame_id rules pc now eo _ hg
  · intro es hes
    rw [gameover_run_id rules ew pc es _ hg hes]
    exact ⟨resign_board pc st, hg⟩

/-- Witness for C7: a pending trigger survives resignation yet a
subsequent frame event leaves the board unchanged. -/
theorem c7_witness :
    (resign_game WHITE { demo_state with ai_move_trigger_time := some 7 }).ai_move_trigger_time
      = some 7 ∧
    (run demo_rules true WHITE
        [Event.frame 1000 (.ok (some { from_square := 8, to_square := 16 }))]
        (resign_game WHITE { demo_state with ai_move_trigger_time := some 7 })).board =
      ({ demo_state with ai_move_trigger_time := some 7 } : GameState).board := by
  obtain ⟨h1, h2, h3, h4, h5⟩ :=
    c7_resign_blocks_trigger demo_rules true WHITE
      { demo_state with ai_move_trigger_time := some 7 } (by decide)
  refine ⟨h1, (h5 _ ?_).1⟩
  intro e he
  rw [List.mem_singleton] at he
  subst he
  trivial

-- Preservation of the no-engine state: with engine startup failing,
-- no handler ever arms a trigger or brings an engine handle to life.

theorem reset_game_engine_off (rules : Rules) (pc : Bool) (now : Nat) (b : Bool)
    (st : GameState) (he : st.engine = false) :
    engine_off (reset_game rules false pc now b st) := by
  unfold reset_game engine_off
  simp [he, update_ui_text]

theorem board_click_engine_off (rules : Rules) (pc : Bool) (now sq : Nat)
    (st : GameState) (h : engine_off st) :
    engine_off (board_click rules pc now sq st) := by
  obtain ⟨he, ht⟩ := h
  rcases hs : st.selected_square with _ | sel
  · rw [board_click_sel_none rules pc now sq st hs]
    split
    · exact ⟨he, ht⟩
    · exact ⟨he, ht⟩
  · by_cases hleg : attempted_move pc sel sq st.board ∈ st.board.legal_moves
    · unfold board_click
      simp only [hs]
      rw [if_pos hleg]
      split <;> split <;>
        first
        | exact ⟨he, ht⟩
        | (rename_i hcond
           exact absurd (hcond.2 : st.engine = true)
             (fun hx => Bool.noConfusion (he.symm.trans hx)))
    · by_cases heq : sq = sel
      · rw [board_click_same rules pc now sq sel st hs hleg heq]
        exact ⟨he, ht⟩
      · by_cases hown : is_own_piece pc (st.board.piece_at sq) = true
        · rw [board_click_reselect rules pc now sq sel st hs hleg heq hown]
          exact ⟨he, ht⟩
        · rw [board_click_ignore rules pc now sq sel st hs hleg heq
            (Bool.eq_false_iff.mpr hown)]
          exact ⟨he, ht⟩

theorem engine_off_step (rules : Rules) (pc : Bool) (e : Event) (st : GameState)
    (h : engine_off st) : engine_off (step rules false pc e st) := by
  obtain ⟨he, ht⟩ := h
  cases e with
  | click now pos =>
    show engine_off (handle_mouse_click rules false pc now pos st)
    unfold handle_mouse_click
    split
    · exact reset_game_engine_off rules pc now true st he
    · split
      · exact ⟨(resign_engine pc st).trans he, (resign_trigger pc st).trans ht⟩
      · split
        · split
          · rename_i sq hsq
            exact board_click_engine_off rules pc now sq st ⟨he, ht⟩
          · exact ⟨he, ht⟩
        · exact ⟨he, ht⟩
  | frame now eo =>
    show engine_off (ai_move_timing rules pc now eo st)
    unfold ai_move_timing
    rw [if_neg (fun hc => Bool.noConfusion (he.symm.trans hc.2.2))]
    exact ⟨he, ht⟩

/-- C6: if engine startup fails (the handle stays `None`), then along
every event sequence no trigger is ever armed and the handle stays
`None`; both the per-frame check and `make_ai_move` are identities on
such states, so the engine is never invoked; and legal human moves are
still applied to the board. -/
theorem c6_engine_never (rules : Rules) (pc : Bool) (es : List Event) (st : GameState)
    (h : engine_off st) :
    engine_off (run rules false pc es st) ∧
    (∀ (s : GameState) (now : Nat) (eo : EngineOutcome), engine_off s →
      make_ai_move rules pc eo s = s ∧ ai_move_timing rules pc now eo s = s) ∧
    (∀ (s : GameState) (now sq sel : Nat), s.selected_square = some sel →
      attempted_move pc sel sq s.board ∈ s.board.legal_moves →
      (board_click rules pc now sq s).board =
        rules.push s.board (attempted_move pc sel sq s.board)) := by
  refine ⟨?_, ?_, ?_⟩
  · induction es generalizing st with
    | nil => exact h
    | cons e es ih => exact ih _ (engine_off_step rules pc e st h)
  · intro s now eo hs
    constructor
    · unfold make_ai_move
      rw [if_neg (fun hc => Bool.noConfusion (hs.1.symm.trans hc.1))]
    · unfold ai_move_timing
      rw [if_neg (fun hc => Bool.noConfusion (hs.1.symm.trans hc.2.2))]
  · intro s now sq sel hsel hleg
    exact (board_click_legal rules pc now sq sel s hsel hleg).1

/-- Witness for C6: starting with no engine, a New Game click (engine
startup fails again) followed by a frame event still leaves no engine
and no armed trigger. -/
theorem c6_witness :
    engine_off (run demo_rules false WHITE
      [Event.click 0 (300, 630), Event.frame 1000 .engineError] demo_state_no_engine) ∧
    make_ai_move demo_rules WHITE .engineError demo_state_no_engine = demo_state_no_engine := by
  obtain ⟨h1, h2, h3⟩ := c6_engine_never demo_rules WHITE
    [Event.click 0 (300, 630), Event.frame 1000 .engineError]
    demo_state_no_engine ⟨rfl, rfl⟩
  exact ⟨h1, (h2 demo_state_no_engine 0 .engineError ⟨rfl, rfl⟩).1⟩

-- Preservation of the selection invariant (C3).

theorem make_ai_move_selected (rules : Rules) (pc : Bool) (eo : EngineOutcome)
    (st : GameState) :
    (make_ai_move rules pc eo st).selected_square = st.selected_square := by
  simp only [make_ai_move]
  (repeat' split) <;> rfl

theorem sel_inv_board_click (rules : Rules) (pc : Bool) (now sq : Nat)
    (st : GameState) (h : sel_inv pc st) (hturn : st.current_turn = pc) :
    sel_inv pc (board_click rules pc now sq st) := by
  rcases hs : st.selected_square with _ | sel
  · rw [board_click_sel_none rules pc now sq st hs]
    split
    · rename_i hown
      refine ⟨fun hct => absurd hturn hct, fun sq' p hsq' hpp => ?_⟩
      have hss : sq = sq' := by
        simpa using hsq'
      subst hss
      cases hp : st.board.piece_at sq with
      | none => rw [hp] at hpp; cases hpp
      | some q =>
        rw [hp] at hpp
        injection hpp with hq
        subst hq
        rw [hp] at hown
        unfold is_own_piece at hown
        exact of_decide_eq_true hown
    · refine ⟨fun _ => rfl, fun sq' p hsq' hpp => ?_⟩
      cases hsq'
  · by_cases hleg : attempted_move pc sel sq st.board ∈ st.board.legal_moves
    · have hnone := (board_click_legal rules pc now sq sel st hs hleg).2.1
      exact ⟨fun _ => hnone, fun sq' p hsq' hpp => by rw [hnone] at hsq'; cases hsq'⟩
    · by_cases heq : sq = sel
      · rw [board_click_same rules pc now sq sel st hs hleg heq]
        exact ⟨fun _ => rfl, fun sq' p hsq' hpp => by cases hsq'⟩
      · by_cases hown : is_own_piece pc (st.board.piece_at sq) = true
        · rw [board_click_reselect rules pc now sq sel st hs hleg heq hown]
          refine ⟨fun hct => absurd hturn hct, fun sq' p hsq' hpp => ?_⟩
          have hss : sq = sq' := by
            simpa using hsq'
          subst hss
          cases hp : st.board.piece_at sq with
          | none => rw [hp] at hpp; cases hpp
          | some q =>
            rw [hp] at hpp
            injection hpp with hq
            subst hq
            rw [hp] at hown
            unfold is_own_piece at hown
            exact of_decide_eq_true hown
        · rw [board_click_ignore rules pc now sq sel st hs hleg heq
            (Bool.eq_false_iff.mpr hown)]
          exact h

theorem sel_inv_reset (rules : Rules) (ew pc : Bool) (now : Nat) (b : Bool)
    (st : GameState) :
    sel_inv pc (reset_game rules ew pc now b st) := by
  have hn : (reset_game rules ew pc now b st).selected_square = none := by
    simp only [reset_game]
    (repeat' split) <;> rfl
  exact ⟨fun _ => hn, fun sq p hsq hpp => by rw [hn] at hsq; cases hsq⟩

theorem sel_inv_step (rules : Rules) (ew pc : Bool) (e : Event) (st : GameState)
    (h : sel_inv pc st) : sel_inv pc (step rules ew pc e st) := by
  cases e with
  | click now pos =>
    show sel_inv pc (handle_mouse_click rules ew pc now pos st)
    unfold handle_mouse_click
    split
    · exact sel_inv_reset rules ew pc now true st
    · split
      · refine ⟨fun hct => ?_, fun sq p hsq hpp => ?_⟩
        · rw [resign_selected]
          exact h.1 (fun hx => hct ((resign_turn pc st).symm ▸ hx))
        · rw [resign_selected] at hsq
          rw [resign_board] at hpp
          exact h.2 sq p hsq hpp
      · split
        · split
          · rename_i hcond _ sq hsq
            exact sel_inv_board_click rules pc now sq st h hcond.1
          · exact ⟨fun _ => rfl, fun sq p hsq hpp => by cases hsq⟩
        · exact h
  | frame now eo =>
    show sel_inv pc (ai_move_timing rules pc now eo st)
    unfold ai_move_timing
    split
    · rename_i hcond
      have hn : st.selected_square = none := h.1 hcond.2.1
      split
      · split
        · have hsel := (make_ai_move_selected rules pc eo st).trans hn
          exact ⟨fun _ => hsel, fun sq p hsq hpp => by rw [hsel] at hsq; cases hsq⟩
        · exact h
      · exact h
    · exact h

/-- C3: along every event sequence, from any state satisfying the
selection invariant (in particular any freshly reset game), the
selected square never holds a piece of the non-human color: both
selecting branches of the dispatcher require a human-owned piece, moves
clear the selection, and the engine's move can only happen while
nothing is selected. -/
theorem c3_selection_invariant (rules : Rules) (ew pc : Bool) (es : List Event)
    (st : GameState) (h : sel_inv pc st) :
    sel_inv pc (run rules ew pc es st) := by
  induction es generalizing st with
  | nil => exact h
  | cons e es ih => exact ih _ (sel_inv_step rules ew pc e st h)

/-- Witness for C3: a concrete click sequence (select a2, move a2-a3,
then a frame event with an engine reply) keeps the invariant. -/
theorem c3_witness :
    sel_inv WHITE (run demo_rules false WHITE
      [Event.click 0 (160, 530), Event.click 1 (160, 470),
       Event.frame 600 (.ok (some { from_square := 60, to_square := 59 }))]
      demo_state) := by
  apply c3_selection_invariant
  refine ⟨fun _ => rfl, fun sq p hsq hpp => ?_⟩
  simp [demo_state] at hsq

end Chess




